import Mathlib

/-!
Verification development for the watch-tower repository (Go).

Shallow embedding of the core subsystems the claims concern:
  * the predicate compiler/evaluator and token bucket (internal/engine/predicate.go),
  * the rule engine event handling (internal/engine/runner.go),
  * the SQLite-backed ledger operations (the storage package),
  * the EVM and Algorand block scanners (internal/source/evm, internal/source/algorand).

Modelling conventions:
  * Go `uint64` heights are Nat; the one addition that could wrap
    (`target := curHeight + 1`) is taken modulo 2^64.
  * Go `time.Time` is modelled as a rational number of seconds; the zero
    time (`IsZero`) is modelled by `Option` with `none` as the zero value.
    `time.Time.After` is a strict comparison, as in Go.
  * Go `float64` is modelled by the exact rational type `QR` below.  Every
    concrete float value appearing in this development (thresholds, token
    counts, durations) is exactly representable in binary64, so exact
    rational arithmetic agrees with Go's double arithmetic on them.
  * `map[string]T` is modelled as an association list keyed by `String`
    (the Go maps here are only read through lookup/membership).
  * Fallible Go calls return `Except String`/`Option`; I/O errors of the
    fake-able clients are the `none`/`error` cases.
  * Go string functions are re-implemented structurally over `List Char`
    so that concrete runs reduce inside the kernel.
-/

/-! ## Exact rationals (model of Go float64)

A fraction with a positive denominator; operations do not normalize (the
values compared in this development are small).  Comparisons cross-multiply,
which is exact because denominators are positive. -/

structure QR where
  num : Int
  den : Int
  dpos : 0 < den

instance : DecidableEq QR := fun a b =>
  decidable_of_iff (a.num = b.num ∧ a.den = b.den) (by
    cases a; cases b; simp)

def QR.ofInt (n : Int) : QR := ⟨n, 1, one_pos⟩

def QR.add (a b : QR) : QR :=
  ⟨a.num * b.den + b.num * a.den, a.den * b.den, mul_pos a.dpos b.dpos⟩

def QR.neg (a : QR) : QR := ⟨-a.num, a.den, a.dpos⟩

def QR.sub (a b : QR) : QR := a.add b.neg

def QR.mul (a b : QR) : QR :=
  ⟨a.num * b.num, a.den * b.den, mul_pos a.dpos b.dpos⟩

def QR.le (a b : QR) : Bool := a.num * b.den ≤ b.num * a.den

def QR.lt (a b : QR) : Bool := a.num * b.den < b.num * a.den

/-- Go's `min` for float64 (predicate.go): `if a < b { return a }; return b`. -/
def QR.fmin (a b : QR) : QR := if a.lt b then a else b

/-- Scale by a power of ten with an integer exponent (exact). -/
def QR.scalePow10 (a : QR) (e : Int) : QR :=
  match e with
  | .ofNat k => ⟨a.num * (10 : Int) ^ k, a.den, a.dpos⟩
  | .negSucc k =>
    ⟨a.num, a.den * (10 : Int) ^ (k + 1),
     mul_pos a.dpos (pow_pos (by norm_num) _)⟩

/-! ## Go string helpers, structurally over `List Char` -/

def charsStarts : List Char → List Char → Bool
  | [], _ => true
  | _ :: _, [] => false
  | p :: ps, c :: cs => if p = c then charsStarts ps cs else false

/-- Split at the first occurrence of `sep` (nonempty): the part before and
the part after.  `none` when `sep` does not occur. -/
def charsSplitFirst (sep : List Char) : List Char → Option (List Char × List Char)
  | [] => if sep.isEmpty then some ([], []) else none
  | c :: cs =>
    if charsStarts sep (c :: cs) then
      some ([], (c :: cs).drop sep.length)
    else
      match charsSplitFirst sep cs with
      | none => none
      | some (l, r) => some (c :: l, r)

/-- Go strings.Contains. (`Contains(s, "")` is true, as in Go.) -/
def charsContains (s sub : List Char) : Bool :=
  if sub.isEmpty then true else (charsSplitFirst sub s).isSome

/-- Go strings.Split with a nonempty separator: split at every occurrence.
Fueled to make the recursion on the shrinking remainder structural; the
wrapper supplies enough fuel. -/
def charsSplitAllFuel (sep : List Char) : Nat → List Char → List (List Char)
  | 0, s => [s]
  | fuel + 1, s =>
    match charsSplitFirst sep s with
    | none => [s]
    | some (l, r) => l :: charsSplitAllFuel sep fuel r

def charsSplitAll (sep s : List Char) : List (List Char) :=
  if sep.isEmpty then [s] else charsSplitAllFuel sep (s.length + 1) s

/-- Go strings.ReplaceAll with a nonempty pattern. -/
def charsReplaceAll (s pat repl : List Char) : List Char :=
  match charsSplitAll pat s with
  | [] => []
  | x :: xs => x ++ (xs.map (fun y => repl ++ y)).flatten

/-- Go strings.TrimSpace (ASCII whitespace; the inputs here are ASCII). -/
def charsTrim (s : List Char) : List Char :=
  ((s.dropWhile Char.isWhitespace).reverse.dropWhile Char.isWhitespace).reverse

def goContains (s sub : String) : Bool := charsContains s.data sub.data

def goSplitFirst (s sep : String) : Option (String × String) :=
  (charsSplitFirst sep.data s.data).map (fun p => (String.mk p.1, String.mk p.2))

def goSplitAll (s sep : String) : List String :=
  (charsSplitAll sep.data s.data).map String.mk

def goReplaceAll (s pat repl : String) : String :=
  String.mk (charsReplaceAll s.data pat.data repl.data)

def goTrim (s : String) : String := String.mk (charsTrim s.data)

def goStarts (s pre : String) : Bool := charsStarts pre.data s.data

def goEnds (s suf : String) : Bool := charsStarts suf.data.reverse s.data.reverse

def goDrop (s : String) (n : Nat) : String := String.mk (s.data.drop n)

def goDropRight (s : String) (n : Nat) : String :=
  String.mk (s.data.take (s.data.length - n))

/-! ## Number parsing (strconv.ParseFloat and evaluateNumber) -/

/-- Decimal digit run to a value; `none` if empty or a non-digit occurs. -/
def digitsVal (cs : List Char) : Option Nat :=
  if cs.isEmpty then none
  else cs.foldl (fun acc c =>
    match acc with
    | none => none
    | some n => if c.isDigit then some (n * 10 + (c.toNat - 48)) else none) (some 0)

/-- Mantissa `intPart.fracPart` as an exact rational; either side may be
empty but not both. -/
def parseMantissa (cs : List Char) : Option QR :=
  match charsSplitAll ['.'] cs with
  | [intPart] => (digitsVal intPart).map (fun n => QR.ofInt n)
  | [intPart, fracPart] =>
    if intPart.isEmpty then
      (digitsVal fracPart).map (fun f =>
        ⟨(f : Int), (10 : Int) ^ fracPart.length, pow_pos (by norm_num) _⟩)
    else if fracPart.isEmpty then
      (digitsVal intPart).map (fun n => QR.ofInt n)
    else
      match digitsVal intPart, digitsVal fracPart with
      | some n, some f =>
        some ⟨(n : Int) * (10 : Int) ^ fracPart.length + (f : Int),
              (10 : Int) ^ fracPart.length, pow_pos (by norm_num) _⟩
      | _, _ => none
  | _ => none

/-- Optional sign followed by a digit run, as an integer exponent. -/
def parseSignedDigits (cs : List Char) : Option Int :=
  match cs with
  | '+' :: rest => (digitsVal rest).map (fun n => (n : Int))
  | '-' :: rest => (digitsVal rest).map (fun n => -(n : Int))
  | _ => (digitsVal cs).map (fun n => (n : Int))

def qrApplySign (sign : Bool) (v : QR) : QR := if sign then v else v.neg

/-- Go strconv.ParseFloat for the decimal / scientific forms the predicate
grammar uses (`10`, `1.5`, `1e6`, `-3.2e-1`, ...).  The exotic Go forms
(`Inf`, `NaN`, hexadecimal floats) are outside the documented grammar and
not modelled; they would only shift an input onto the string path.  Values
are exact rationals. -/
def goParseFloat (s : String) : Option QR :=
  let cs := s.data
  let sign := !(charsStarts ['-'] cs)
  let cs := if charsStarts ['+'] cs ∨ charsStarts ['-'] cs then cs.drop 1 else cs
  match charsSplitAll ['e'] cs with
  | [mant] =>
    -- no lowercase 'e'; try uppercase 'E'
    (match charsSplitAll ['E'] mant with
     | [m] => (parseMantissa m).map (qrApplySign sign)
     | [m, ex] =>
       match parseMantissa m, parseSignedDigits ex with
       | some v, some e => some (qrApplySign sign (v.scalePow10 e))
       | _, _ => none
     | _ => none)
  | [mant, ex] =>
    if mant.contains 'E' ∨ ex.contains 'E' then none
    else
      match parseMantissa mant, parseSignedDigits ex with
      | some v, some e => some (qrApplySign sign (v.scalePow10 e))
      | _, _ => none
  | _ => none

/-! ## Decoded argument values (`map[string]any` entries)

The dynamic values the decoders place into `args`.  `vBigInt` stands for
`*big.Int` (the go-ethereum decode of solidity integer types); `vOther`
stands for any further dynamic type.  `toNumber`'s Go type switch has cases
for int, int64, uint64, float64, float32 and string only; every other
type — including `*big.Int` — takes the default branch. -/

inductive GoValue where
  | vInt (n : Int)
  | vInt64 (n : Int)
  | vUInt64 (n : Nat)
  | vFloat64 (q : QR)
  | vFloat32 (q : QR)
  | vString (s : String)
  | vBigInt (n : Int)
  | vBool (b : Bool)
  | vOther
  deriving DecidableEq

/-- Association-list model of `map[string]any`. -/
abbrev Args := List (String × GoValue)

def lookupArg (args : Args) (field : String) : Option GoValue :=
  match args with
  | [] => none
  | (k, v) :: rest => if k = field then some v else lookupArg rest field

/-- fmt.Sprint of a decoded value.  Integers format in decimal exactly as Go
does; the float rendering is an approximation (Go's %v float formatting is
not needed by any claim), and `vOther` stands for the rendering of a value
whose shape the claims never inspect. -/
def goFormat : GoValue → String
  | .vInt n => toString n
  | .vInt64 n => toString n
  | .vUInt64 n => toString n
  | .vFloat64 q => toString q.num ++ "/" ++ toString q.den
  | .vFloat32 q => toString q.num ++ "/" ++ toString q.den
  | .vString s => s
  | .vBigInt n => toString n
  | .vBool b => toString b
  | .vOther => "<value>"

/-! ## Predicate compiler (internal/engine/predicate.go, current version) -/

/-- evaluateNumber: trim, strip `_`, then multiplication, `wei(...)`,
`microAlgos(...)`, or a plain number.  The Go function recurses on strictly
shorter strings, so a fuel of the string length plus one suffices; the
wrapper below supplies it. -/
def evaluateNumberFuel : Nat → String → Option QR
  | 0, _ => none
  | fuel + 1, s =>
    let s := goTrim s
    let s := goReplaceAll s "_" ""
    if goContains s "*" then
      match goSplitAll s "*" with
      | [a, b] =>
        match evaluateNumberFuel fuel (goTrim a), evaluateNumberFuel fuel (goTrim b) with
        | some x, some y => some (x.mul y)
        | _, _ => none
      | _ => none
    else if goStarts s "wei(" ∧ goEnds s ")" then
      evaluateNumberFuel fuel (goTrim (goDropRight (goDrop s 4) 1))
    else if goStarts s "microAlgos(" ∧ goEnds s ")" then
      evaluateNumberFuel fuel (goTrim (goDropRight (goDrop s 11) 1))
    else
      goParseFloat s

def evaluateNumber (s : String) : Option QR :=
  evaluateNumberFuel (s.data.length + 1) s

/-- parseNumber delegates to evaluateNumber in the current source. -/
def parseNumber (s : String) : Option QR := evaluateNumber s

/-- toNumber: the Go type switch.  There is no `*big.Int` case: it falls to
the default branch together with every other unlisted type. -/
def toNumber : GoValue → Option QR
  | .vInt n => some (QR.ofInt n)
  | .vInt64 n => some (QR.ofInt n)
  | .vUInt64 n => some (QR.ofInt n)
  | .vFloat64 q => some q
  | .vFloat32 q => some q
  | .vString s => parseNumber s
  | _ => none

inductive CmpOp where
  | eq | ne | ge | le | gt | lt
  deriving DecidableEq

def CmpOp.str : CmpOp → String
  | .eq => "=="
  | .ne => "!="
  | .ge => ">="
  | .le => "<="
  | .gt => ">"
  | .lt => "<"

/-- The closure shapes `compile` produces: an `in` membership test, a
`contains` substring test, or an operator comparison with the pre-parsed
numeric right-hand side (`none` when the RHS did not parse as a number). -/
inductive CompiledPred where
  | inSet (field : String) (values : List String)
  | containsSub (field : String) (needle : String)
  | cmp (field : String) (op : CmpOp) (rhsRaw : String) (numRHS : Option QR)
  deriving DecidableEq

def cmpNum (op : CmpOp) (l r : QR) : Bool :=
  match op with
  | .eq => l.num * r.den = r.num * l.den
  | .ne => decide ¬(l.num * r.den = r.num * l.den)
  | .ge => r.le l
  | .le => l.le r
  | .gt => r.lt l
  | .lt => l.lt r

/-- The evaluator closure returned by compile.  Mirrors the Go closure
bodies: every branch returns a nil error; a missing field, a failed LHS
conversion and a non-equality string comparison all yield `false`. -/
def evalPred (p : CompiledPred) (args : Args) : Except String Bool :=
  match p with
  | .inSet field values =>
    match lookupArg args field with
    | none => .ok false
    | some v => .ok (values.contains (goFormat v))
  | .containsSub field needle =>
    match lookupArg args field with
    | none => .ok false
    | some v => .ok (goContains (goFormat v) needle)
  | .cmp field op rhsRaw numRHS =>
    match lookupArg args field with
    | none => .ok false
    | some v =>
      match numRHS with
      | some n =>
        match toNumber v with
        | none => .ok false
        | some l => .ok (cmpNum op l n)
      | none =>
        match op with
        | .eq => .ok (goFormat v = rhsRaw)
        | .ne => .ok (decide ¬(goFormat v = rhsRaw))
        | _ => .ok false

/-- The operator scan: `==`, `!=`, `>=`, `<=`, `>`, `<`, in the source's
switch order (two-character operators are checked before `>` and `<`). -/
def findOp (expr : String) : Option CmpOp :=
  if goContains expr "==" then some .eq
  else if goContains expr "!=" then some .ne
  else if goContains expr ">=" then some .ge
  else if goContains expr "<=" then some .le
  else if goContains expr ">" then some .gt
  else if goContains expr "<" then some .lt
  else none

/-- compile: the `in` and `contains` infix keywords are matched before the
operator scan; the comparison RHS is parsed once at compile time. -/
def compile (expr : String) : Except String CompiledPred :=
  if goContains expr " in " then
    match goSplitFirst expr " in " with
    | none => .error ("invalid in expression: " ++ expr)
    | some (l, r) =>
      let values := (goSplitAll r ",").filterMap
        (fun v => let v := goTrim v; if v = "" then none else some v)
      .ok (.inSet (goTrim l) values)
  else if goContains expr " contains " then
    match goSplitFirst expr " contains " with
    | none => .error ("invalid contains expression: " ++ expr)
    | some (l, r) => .ok (.containsSub (goTrim l) (goTrim r))
  else
    match findOp expr with
    | none => .error ("unsupported expression: " ++ expr)
    | some op =>
      match goSplitFirst expr op.str with
      | none => .error ("invalid expression: " ++ expr)
      | some (l, r) =>
        let rhsRaw := goTrim r
        .ok (.cmp (goTrim l) op rhsRaw (evaluateNumber rhsRaw))

/-- CompilePredicates: trim, drop empty expressions, compile each. -/
def compilePredicates (exprs : List String) : Except String (List CompiledPred) :=
  match exprs with
  | [] => .ok []
  | raw :: rest =>
    let raw := goTrim raw
    if raw = "" then compilePredicates rest
    else
      match compile raw with
      | .error e => .error e
      | .ok p =>
        match compilePredicates rest with
        | .error e => .error e
        | .ok ps => .ok (p :: ps)

/-- allPredicates: short-circuit conjunction; an evaluator error aborts. -/
def allPredicates (preds : List CompiledPred) (args : Args) : Except String Bool :=
  match preds with
  | [] => .ok true
  | p :: rest =>
    match evalPred p args with
    | .error e => .error e
    | .ok false => .ok false
    | .ok true => allPredicates rest args

deriving instance DecidableEq for Except

example : (evaluateNumber "1_000_000 * 1e6").map (fun q => decide (q.num = 1000000000000 * q.den)) = some true := by decide
example : compile "sender in a,b,c" = .ok (.inSet "sender" ["a", "b", "c"]) := by decide
example :
    (match compile "value > 10" with
     | .ok (.cmp f .gt r (some q)) => f = "value" && r = "10" && decide (q.num = 10 * q.den)
     | _ => false) = true := by
  decide

/-! ## TokenBucket (internal/engine/predicate.go)

`lastUpdate : Option QR` models Go's `time.Time` field with `none` as the
zero value tested by `IsZero`. -/

structure TokenBucket where
  capacity : QR
  rate : QR
  tokens : QR
  lastUpdate : Option QR
  deriving DecidableEq

/-- NewTokenBucket: starts full, with the zero last-update time. -/
def newTokenBucket (capacity rate : QR) : TokenBucket :=
  ⟨capacity, rate, capacity, none⟩

/-- Allow: initialize lastUpdate on first use, refill for positive elapsed
time (clamped at capacity), then consume one token if at least one is held. -/
def TokenBucket.allow (b : TokenBucket) (now : QR) : Bool × TokenBucket :=
  let last : QR := match b.lastUpdate with | none => now | some t => t
  let elapsed := now.sub last
  let b1 : TokenBucket :=
    if (QR.ofInt 0).lt elapsed then
      { b with tokens := b.capacity.fmin (b.tokens.add (elapsed.mul b.rate)),
               lastUpdate := some now }
    else
      { b with lastUpdate := some last }
  if (QR.ofInt 1).le b1.tokens then
    (true, { b1 with tokens := b1.tokens.sub (QR.ofInt 1) })
  else
    (false, b1)

/-- Run a sequence of Allow calls at the given absolute times, collecting
the returned booleans. -/
def runAllows (b : TokenBucket) : List QR → List Bool
  | [] => []
  | t :: ts =>
    let (ok, b') := b.allow t
    ok :: runAllows b' ts

example :
    runAllows (newTokenBucket (QR.ofInt 2) (QR.ofInt 1))
      [QR.ofInt 0, QR.ofInt 0, QR.ofInt 0, ⟨3, 2, by norm_num⟩] =
      [true, true, false, true] := by decide

/-! ## Ledger (storage package: the Store source)

Only the state the claims touch is modelled: the dedupe table (key to
expiry) and the cursors table (source id to height and hash).  Alerts and
send receipts are write-only from the engine's perspective and are observed
through the effect traces below. -/

/-- The dedupe table: `key PRIMARY KEY, expires_at`. -/
abbrev DedupeTable := List (String × QR)

def dedupeLookup (t : DedupeTable) (key : String) : Option QR :=
  match t with
  | [] => none
  | (k, e) :: rest => if k = key then some e else dedupeLookup rest key

def dedupeDelete (t : DedupeTable) (key : String) : DedupeTable :=
  match t with
  | [] => []
  | (k, e) :: rest =>
    if k = key then dedupeDelete rest key else (k, e) :: dedupeDelete rest key

def dedupeUpsert (t : DedupeTable) (key : String) (exp : QR) : DedupeTable :=
  match t with
  | [] => [(key, exp)]
  | (k, e) :: rest =>
    if k = key then (k, exp) :: rest else (k, e) :: dedupeUpsert rest key exp

/-- The cursors table: `source_id PRIMARY KEY, height, hash`. -/
abbrev CursorTable := List (String × Nat × String)

def cursorLookup (t : CursorTable) (sid : String) : Option (Nat × String) :=
  match t with
  | [] => none
  | (k, v) :: rest => if k = sid then some v else cursorLookup rest sid

def cursorUpsertRow (t : CursorTable) (sid : String) (h : Nat) (hs : String) : CursorTable :=
  match t with
  | [] => [(sid, h, hs)]
  | (k, v) :: rest =>
    if k = sid then (k, h, hs) :: rest else (k, v) :: cursorUpsertRow rest sid h hs

structure StoreState where
  cursors : CursorTable
  dedupe : DedupeTable
  deriving DecidableEq

/-- Store.GetCursor: `(height, hash, present)`; absent rows are
`(0, "", false)` with no error. -/
def getCursor (st : StoreState) (sid : String) : Nat × String × Bool :=
  match cursorLookup st.cursors sid with
  | none => (0, "", false)
  | some (h, hs) => (h, hs, true)

/-- Store.UpsertCursor: rejects an empty source id, otherwise
insert-or-replace. -/
def upsertCursor (st : StoreState) (sid : String) (h : Nat) (hs : String) :
    Except String StoreState :=
  if sid = "" then .error "sourceID required"
  else .ok { st with cursors := cursorUpsertRow st.cursors sid h hs }

/-- Store.MarkDedupe: rejects an empty key, otherwise
insert-or-replace-on-conflict. -/
def markDedupe (st : StoreState) (key : String) (exp : QR) : Except String StoreState :=
  if key = "" then .error "key required"
  else .ok { st with dedupe := dedupeUpsert st.dedupe key exp }

/-- Store.IsDuplicate: rejects an empty key; a missing row is `false`; a row
with `expires_at` strictly after `now` is `true`; an expired row is pruned
and reported `false`. -/
def isDuplicate (st : StoreState) (key : String) (now : QR) :
    Except String (Bool × StoreState) :=
  if key = "" then .error "key required"
  else
    match dedupeLookup st.dedupe key with
    | none => .ok (false, st)
    | some exp =>
      if now.lt exp then .ok (true, st)
      else .ok (false, { st with dedupe := dedupeDelete st.dedupe key })

/-! ## Rule engine (internal/engine/runner.go)

`handleEvents` as in the source: rule lookup, predicate conjunction (errors
swallowed as a skip), dedupe consultation and marking, the dry-run gate, and
sink fan-out.  The source consults no rate limiter here, and never calls
InsertAlert or InsertSend; the effect vocabulary still has constructors for
those ledger writes (and for sink sends) so the traces can express what the
engine does and does not record.  `now` is the value `r.nowFunc()` yields
during the call. -/

structure DedupeCfg where
  key : String
  ttl : String
  deriving DecidableEq

structure Rule where
  id : String
  source : String
  whereExprs : List String
  sinks : List String
  dedupe : Option DedupeCfg
  deriving DecidableEq

structure RuleExec where
  rule : Rule
  preds : List CompiledPred
  /-- `time.ParseDuration` of the dedupe TTL at construction, in seconds;
  zero when unset or unparseable. -/
  ttl : QR
  deriving DecidableEq

structure Event where
  ruleID : String
  chain : String
  sourceID : String
  height : Nat
  hash : String
  txHash : String
  logIndex : Option Nat
  appID : Nat
  args : Args
  deriving DecidableEq

structure RunnerState where
  rules : List (String × RuleExec)
  /-- The sink table; a sink id not present maps to Go `nil` and is skipped. -/
  sinkIDs : List String
  dryRun : Bool
  store : StoreState
  deriving DecidableEq

inductive REffect where
  | isDup (key : String) (result : Bool)
  | markDedupe (key : String) (exp : QR)
  | insertAlert (id : String)
  | insertSend (alertID sinkID : String)
  | send (sinkID ruleID txHash : String)
  deriving DecidableEq

def REffect.isSend : REffect → Bool
  | .send _ _ _ => true
  | _ => false

def REffect.isInsertAlert : REffect → Bool
  | .insertAlert _ => true
  | _ => false

def REffect.isInsertSend : REffect → Bool
  | .insertSend _ _ => true
  | _ => false

def lookupRule (rules : List (String × RuleExec)) (id : String) : Option RuleExec :=
  match rules with
  | [] => none
  | (k, v) :: rest => if k = id then some v else lookupRule rest id

/-- buildDedupeKey: empty pattern defaults to `txhash`; plain substring
substitution of `txhash`, then `logIndex` (when present), then `app_id`
(when nonzero). -/
def buildDedupeKey (pattern : String) (ev : Event) : String :=
  let pattern := if pattern = "" then "txhash" else pattern
  let key := goReplaceAll pattern "txhash" ev.txHash
  let key := match ev.logIndex with
    | some i => goReplaceAll key "logIndex" (toString i)
    | none => key
  if ev.appID ≠ 0 then goReplaceAll key "app_id" (toString ev.appID) else key

/-- The per-event body of the loop in `Runner.handleEvents`.  Returns the
updated state and the effects of this iteration, or the error that aborts
the whole call (only ledger errors propagate; sink sends are modelled as
succeeding, as with the fake sink in the repository's tests). -/
def handleOneEvent (rs : RunnerState) (now : QR) (ev : Event) :
    Except String (RunnerState × List REffect) :=
  match lookupRule rs.rules ev.ruleID with
  | none => .ok (rs, [])
  | some exec =>
    match allPredicates exec.preds ev.args with
    | .error _ => .ok (rs, [])
    | .ok false => .ok (rs, [])
    | .ok true =>
      let afterDedupe : Except String (Option (RunnerState × List REffect)) :=
        match exec.rule.dedupe with
        | none => .ok (some (rs, []))
        | some d =>
          let key := buildDedupeKey d.key ev
          match isDuplicate rs.store key now with
          | .error e => .error e
          | .ok (true, _) => .ok none
          | .ok (false, st') =>
            let exp := if exec.ttl = QR.ofInt 0
              then now.add (QR.ofInt 86400)
              else now.add exec.ttl
            match markDedupe st' key exp with
            | .error e => .error e
            | .ok st'' =>
              .ok (some ({ rs with store := st'' },
                [.isDup key false, .markDedupe key exp]))
      match afterDedupe with
      | .error e => .error e
      | .ok none =>
        -- duplicate: skip (the `true` probe still touched the ledger)
        match exec.rule.dedupe with
        | some d => .ok (rs, [.isDup (buildDedupeKey d.key ev) true])
        | none => .ok (rs, [])
      | .ok (some (rs', effs)) =>
        if rs'.dryRun then .ok (rs', effs)
        else
          let sends := exec.rule.sinks.filterMap (fun sid =>
            if rs'.sinkIDs.contains sid then some (REffect.send sid exec.rule.id ev.txHash)
            else none)
          .ok (rs', effs ++ sends)

/-- Runner.handleEvents: the loop over the events of one scanner tick. -/
def handleEvents (rs : RunnerState) (now : QR) (events : List Event) :
    Except String (RunnerState × List REffect) :=
  match events with
  | [] => .ok (rs, [])
  | ev :: rest =>
    match handleOneEvent rs now ev with
    | .error e => .error e
    | .ok (rs', effs) =>
      match handleEvents rs' now rest with
      | .error e => .error e
      | .ok (rs'', effs') => .ok (rs'', effs ++ effs')

/-! ## Scanners (internal/source/evm and internal/source/algorand)

One `NEvent` structure covers the two Go `NormalizedEvent` structs (the EVM
one has contract and log-index fields, the Algorand one an app id; unused
fields stay at their zero values).  Decoding internals of the rule matchers
are abstracted as matcher functions, exactly the shape of `Match` /
`MatchTxn`.  Every external call and every cursor write is recorded in an
effect trace, in call order. -/

structure NEvent where
  chain : String
  sourceID : String
  ruleID : String
  height : Nat
  hash : String
  txHash : String
  logIndex : Option Nat
  contract : String
  appID : Nat
  name : String
  args : Args
  deriving DecidableEq

inductive SEffect where
  | getCursor (sid : String)
  | fetchLatest
  | fetchHeader (n : Nat)
  | fetchLogs (n : Nat)
  | fetchBlock (n : Nat)
  | fetchBlockHash (n : Nat)
  | upsertCursor (sid : String) (height : Nat) (hash : String)
  deriving DecidableEq

/-- Effects that persist state (ledger writes). -/
def SEffect.isWrite : SEffect → Bool
  | .upsertCursor _ _ _ => true
  | _ => false

/-- Block or log fetches (header-at-height, logs, raw block, block hash). -/
def SEffect.isBlockFetch : SEffect → Bool
  | .fetchHeader _ => true
  | .fetchLogs _ => true
  | .fetchBlock _ => true
  | .fetchBlockHash _ => true
  | _ => false

inductive ScanErr where
  | reorgDetected
  | fail (msg : String)
  deriving DecidableEq

/-- Go uint64 wrap for the one increment that can overflow. -/
def U64 : Nat := 2 ^ 64

/-- strconv.ParseUint(s, 10, 64). -/
def parseUint64 (s : String) : Option Nat :=
  match digitsVal s.data with
  | none => none
  | some n => if n < U64 then some n else none

/-- resolveStartHeight / resolveStartRound (identical in the two sources):
empty or "0" starts at 0; "latest-N" is N behind the safe head (clamped at
0); otherwise an absolute height. -/
def resolveStartHeight (start : String) (safeHeight : Nat) : Except String Nat :=
  if start = "" ∨ start = "0" then .ok 0
  else if goStarts start "latest-" then
    match parseUint64 (goDrop start 7) with
    | none => .error ("parse start_block " ++ start)
    | some n => if n > safeHeight then .ok 0 else .ok (safeHeight - n)
  else
    match parseUint64 start with
    | none => .error ("parse start_block " ++ start)
    | some n => .ok n

/-! ### EVM scanner -/

structure Header where
  number : Nat
  /-- `header.Hash().Hex()` -/
  hash : String
  /-- `header.ParentHash.Hex()` -/
  parentHash : String
  deriving DecidableEq

structure Log where
  address : String
  topics : List String
  txHash : String
  index : Nat
  deriving DecidableEq

/-- The `BlockClient` interface: latest header, header by height, and the
one-block log filter (with the scanner's address list).  `none` is an RPC
error. -/
structure EvmClient where
  latest : Option Header
  headerAt : Nat → Option Header
  filterLogs : Nat → List String → Option (List Log)

abbrev EvmMatcher := Log → Except String (Option NEvent)

structure EvmScanner where
  sourceID : String
  startBlock : String
  confirmations : Nat
  matchers : List EvmMatcher
  addresses : List String

/-- The log loop: each log is offered to every matcher; a matcher error
aborts; matches are collected in order. -/
def matchersOnLog (ms : List EvmMatcher) (lg : Log) : Except String (List NEvent) :=
  match ms with
  | [] => .ok []
  | m :: rest =>
    match m lg with
    | .error e => .error e
    | .ok none => matchersOnLog rest lg
    | .ok (some ev) =>
      match matchersOnLog rest lg with
      | .error e => .error e
      | .ok evs => .ok (ev :: evs)

def matchLogs (ms : List EvmMatcher) (logs : List Log) : Except String (List NEvent) :=
  match logs with
  | [] => .ok []
  | lg :: rest =>
    match matchersOnLog ms lg with
    | .error e => .error e
    | .ok evs =>
      match matchLogs ms rest with
      | .error e => .error e
      | .ok evs' => .ok (evs ++ evs')

/-- Stamp chain, source, height and block hash onto matched events, as the
loop body in `ProcessNext` does. -/
def stampEvents (chain sid : String) (height : Nat) (blockHash : String)
    (evs : List NEvent) : List NEvent :=
  evs.map (fun ev =>
    { ev with chain := chain, sourceID := sid, height := height, hash := blockHash })

/-- evm.Scanner.ProcessNext.  Returns the Go `([]NormalizedEvent, error)`
pair as an `Except`, the store state after the call, and the effect trace. -/
def evmProcessNext (sc : EvmScanner) (client : EvmClient) (st : StoreState) :
    Except ScanErr (List NEvent) × StoreState × List SEffect :=
  let cur := getCursor st sc.sourceID
  let curHeight := cur.1
  let curHash := cur.2.1
  let hasCursor := cur.2.2
  let tr0 := [SEffect.getCursor sc.sourceID, SEffect.fetchLatest]
  match client.latest with
  | none => (.error (.fail "latest header"), st, tr0)
  | some latest =>
    if sc.confirmations > 0 ∧ sc.confirmations > latest.number then
      (.ok [], st, tr0)
    else
      let safeHeight := latest.number - sc.confirmations
      let targetE : Except String Nat :=
        if hasCursor then .ok ((curHeight + 1) % U64)
        else resolveStartHeight sc.startBlock safeHeight
      match targetE with
      | .error e => (.error (.fail e), st, tr0)
      | .ok target =>
        if target > safeHeight then (.ok [], st, tr0)
        else
          match client.headerAt target with
          | none => (.error (.fail "header"), st, tr0 ++ [.fetchHeader target])
          | some header =>
            if hasCursor ∧ header.parentHash ≠ curHash then
              let rewindTo := if target > 0 then target - 1 else 0
              let st' := match upsertCursor st sc.sourceID rewindTo header.parentHash with
                | .ok s => s
                | .error _ => st  -- the error of the rewind write is discarded
              (.error .reorgDetected, st',
               tr0 ++ [.fetchHeader target,
                       .upsertCursor sc.sourceID rewindTo header.parentHash])
            else
              match client.filterLogs target sc.addresses with
              | none => (.error (.fail "filter logs"), st,
                         tr0 ++ [.fetchHeader target, .fetchLogs target])
              | some logs =>
                match matchLogs sc.matchers logs with
                | .error e => (.error (.fail e), st,
                               tr0 ++ [.fetchHeader target, .fetchLogs target])
                | .ok evs =>
                  match upsertCursor st sc.sourceID target header.hash with
                  | .error e => (.error (.fail e), st,
                                 tr0 ++ [.fetchHeader target, .fetchLogs target,
                                         .upsertCursor sc.sourceID target header.hash])
                  | .ok st' =>
                    (.ok (stampEvents "evm" sc.sourceID target header.hash evs), st',
                     tr0 ++ [.fetchHeader target, .fetchLogs target,
                             .upsertCursor sc.sourceID target header.hash])

/-! ### Algorand scanner -/

/-- A transaction of a block's payset.  `txid` is
`crypto.TransactionIDString(tx)` and `appID` is `tx.ApplicationID`; the
transaction content the matchers inspect is behind the matcher functions. -/
structure AlgoTxn where
  txid : String
  appID : Nat
  deriving DecidableEq

/-- A decoded block: `branch` is `digestToString(BlockHeader.Branch)`, the
canonical base32 encoding of the previous block hash. -/
structure AlgoBlock where
  branch : String
  payset : List AlgoTxn
  deriving DecidableEq

/-- The algod surface the scanner uses: last round, raw block (msgpack
decode folded in; either failure is `none`), and canonical block hash. -/
structure AlgoClient where
  status : Option Nat
  blockAt : Nat → Option AlgoBlock
  blockHashAt : Nat → Option String

abbrev AlgoMatcher := AlgoTxn → Except String (Option NEvent)

structure AlgoScanner where
  sourceID : String
  startRound : String
  confirmations : Nat
  matchers : List AlgoMatcher

def matchersOnTxn (ms : List AlgoMatcher) (tx : AlgoTxn) : Except String (List NEvent) :=
  match ms with
  | [] => .ok []
  | m :: rest =>
    match m tx with
    | .error e => .error e
    | .ok none => matchersOnTxn rest tx
    | .ok (some ev) =>
      match matchersOnTxn rest tx with
      | .error e => .error e
      | .ok evs => .ok ({ ev with txHash := tx.txid, appID := tx.appID } :: evs)

/-- Scanner.extractEvents: iterate the payset, offer each transaction to
every matcher, and stamp the transaction id and application id. -/
def extractEvents (ms : List AlgoMatcher) (payset : List AlgoTxn) :
    Except String (List NEvent) :=
  match payset with
  | [] => .ok []
  | tx :: rest =>
    match matchersOnTxn ms tx with
    | .error e => .error e
    | .ok evs =>
      match extractEvents ms rest with
      | .error e => .error e
      | .ok evs' => .ok (evs ++ evs')

/-- algorand.Scanner.ProcessNext. -/
def algoProcessNext (sc : AlgoScanner) (client : AlgoClient) (st : StoreState) :
    Except ScanErr (List NEvent) × StoreState × List SEffect :=
  let cur := getCursor st sc.sourceID
  let curRound := cur.1
  let curHash := cur.2.1
  let hasCursor := cur.2.2
  let tr0 := [SEffect.getCursor sc.sourceID, SEffect.fetchLatest]
  match client.status with
  | none => (.error (.fail "latest status"), st, tr0)
  | some latest =>
    if sc.confirmations > 0 ∧ latest < sc.confirmations then
      (.ok [], st, tr0)
    else
      let safe := latest - sc.confirmations
      let targetE : Except String Nat :=
        if hasCursor then .ok ((curRound + 1) % U64)
        else resolveStartHeight sc.startRound safe
      match targetE with
      | .error e => (.error (.fail e), st, tr0)
      | .ok target =>
        if target > safe then (.ok [], st, tr0)
        else
          match client.blockAt target with
          | none => (.error (.fail "block"), st, tr0 ++ [.fetchBlock target])
          | some block =>
            if hasCursor ∧ block.branch ≠ curHash then
              let rewindTo := if target > 0 then target - 1 else 0
              let st' := match upsertCursor st sc.sourceID rewindTo block.branch with
                | .ok s => s
                | .error _ => st
              (.error .reorgDetected, st',
               tr0 ++ [.fetchBlock target,
                       .upsertCursor sc.sourceID rewindTo block.branch])
            else
              match client.blockHashAt target with
              | none => (.error (.fail "block hash"), st,
                         tr0 ++ [.fetchBlock target, .fetchBlockHash target])
              | some blockHash =>
                match extractEvents sc.matchers block.payset with
                | .error e => (.error (.fail e), st,
                               tr0 ++ [.fetchBlock target, .fetchBlockHash target])
                | .ok evs =>
                  match upsertCursor st sc.sourceID target blockHash with
                  | .error e => (.error (.fail e), st,
                                 tr0 ++ [.fetchBlock target, .fetchBlockHash target,
                                         .upsertCursor sc.sourceID target blockHash])
                  | .ok st' =>
                    (.ok (stampEvents "algorand" sc.sourceID target blockHash evs), st',
                     tr0 ++ [.fetchBlock target, .fetchBlockHash target,
                             .upsertCursor sc.sourceID target blockHash])

/-! ## Helper lemmas -/

lemma cursorLookup_upsertRow (t : CursorTable) (sid : String) (h : Nat) (hs : String) :
    cursorLookup (cursorUpsertRow t sid h hs) sid = some (h, hs) := by
  induction t with
  | nil => simp [cursorUpsertRow, cursorLookup]
  | cons kv rest ih =>
    obtain ⟨k, v⟩ := kv
    by_cases hk : k = sid
    · simp [cursorUpsertRow, hk, cursorLookup]
    · simp [cursorUpsertRow, hk, cursorLookup, ih]

lemma getCursor_upsertRow (st : StoreState) (sid : String) (h : Nat) (hs : String) :
    getCursor { st with cursors := cursorUpsertRow st.cursors sid h hs } sid =
      (h, hs, true) := by
  simp [getCursor, cursorLookup_upsertRow]

lemma dedupeLookup_delete (t : DedupeTable) (key : String) :
    dedupeLookup (dedupeDelete t key) key = none := by
  induction t with
  | nil => simp [dedupeDelete, dedupeLookup]
  | cons kv rest ih =>
    obtain ⟨k, e⟩ := kv
    by_cases hk : k = key
    · simp [dedupeDelete, hk, ih]
    · simp [dedupeDelete, hk, dedupeLookup, ih]

lemma mem_stampEvents {chain sid : String} {height : Nat} {blockHash : String}
    {evs : List NEvent} {e : NEvent} (he : e ∈ stampEvents chain sid height blockHash evs) :
    e.height = height ∧ e.hash = blockHash := by
  simp only [stampEvents, List.mem_map] at he
  obtain ⟨x, _, rfl⟩ := he
  exact ⟨rfl, rfl⟩

lemma qr_zero_lt_sub (a b : QR) : (QR.ofInt 0).lt (b.sub a) = a.lt b := by
  simp only [QR.lt, QR.sub, QR.add, QR.neg, QR.ofInt]
  rw [decide_eq_decide]
  constructor <;> intro h <;> nlinarith [h]

lemma qr_sub_self_not_lt (a : QR) : (QR.ofInt 0).lt (a.sub a) = false := by
  rw [qr_zero_lt_sub]
  simp only [QR.lt]
  simp

/-! ## Claim theorems -/

/-- C6.  `IsDuplicate(key, now)` (for the nonempty keys the engine produces;
an empty key is rejected by the store before any row is consulted, and
`MarkDedupe` likewise refuses to create a row for it) returns true iff a
dedupe row for `key` exists whose `expires_at` is strictly greater than
`now`; when the row exists but `now ≥ expires_at`, the row is pruned and the
call returns false with no error. -/
theorem c6_isDuplicate_semantics (st : StoreState) (key : String) (now : QR)
    (hk : key ≠ "") :
    ((∃ st', isDuplicate st key now = .ok (true, st')) ↔
      (∃ exp, dedupeLookup st.dedupe key = some exp ∧ now.lt exp = true)) ∧
    (∀ exp, dedupeLookup st.dedupe key = some exp → now.lt exp = false →
      isDuplicate st key now =
        .ok (false, { st with dedupe := dedupeDelete st.dedupe key }) ∧
      dedupeLookup ({ st with dedupe := dedupeDelete st.dedupe key } : StoreState).dedupe key = none) := by
  constructor
  · constructor
    · rintro ⟨st', hst'⟩
      simp only [isDuplicate, hk, if_false] at hst'
      rcases hl : dedupeLookup st.dedupe key with _ | exp
      · rw [hl] at hst'
        simp at hst'
      · rw [hl] at hst'
        by_cases hlt : now.lt exp = true
        · exact ⟨exp, rfl, hlt⟩
        · simp only [hlt] at hst'
          simp at hst'
    · rintro ⟨exp, hl, hlt⟩
      refine ⟨st, ?_⟩
      simp [isDuplicate, hk, hl, hlt]
  · intro exp hl hlt
    constructor
    · simp [isDuplicate, hk, hl, hlt]
    · simpa using dedupeLookup_delete st.dedupe key

/-- C6 witness: a store with an expired row for `k1`. -/
theorem c6_isDuplicate_semantics_witness :
    isDuplicate ⟨[], [("k1", QR.ofInt 5)]⟩ "k1" (QR.ofInt 10) =
      .ok (false, ⟨[], dedupeDelete [("k1", QR.ofInt 5)] "k1"⟩) :=
  (c6_isDuplicate_semantics ⟨[], [("k1", QR.ofInt 5)]⟩ "k1" (QR.ofInt 10)
    (by decide)).2 (QR.ofInt 5) (by decide) (by decide) |>.1

/-- C7.  `Allow(now)`: for a previously observed bucket, the refill goes to
`min(capacity, tokens + elapsed·rate)` and one token is consumed iff at
least one is held afterwards (first conjunct: positive elapsed time; second
conjunct: a repeated observation at the same instant refills by zero
seconds, i.e. consumes from the unchanged token count).  A fresh bucket
starts full with the zero last-update time, which is initialized on the
first call (third conjunct).  With capacity 2 and rate 1/s, calls at
t = 0, 0, 0, 1.5 return true, true, false, true (fourth conjunct). -/
theorem c7_tokenBucket_allow :
    (∀ (b : TokenBucket) (now t : QR), b.lastUpdate = some t → t.lt now = true →
      b.allow now =
        ((QR.ofInt 1).le (b.capacity.fmin (b.tokens.add ((now.sub t).mul b.rate))),
         { capacity := b.capacity, rate := b.rate,
           tokens :=
             if (QR.ofInt 1).le (b.capacity.fmin (b.tokens.add ((now.sub t).mul b.rate)))
             then (b.capacity.fmin (b.tokens.add ((now.sub t).mul b.rate))).sub (QR.ofInt 1)
             else b.capacity.fmin (b.tokens.add ((now.sub t).mul b.rate)),
           lastUpdate := some now })) ∧
    (∀ (b : TokenBucket) (now : QR), b.lastUpdate = some now →
      b.allow now =
        ((QR.ofInt 1).le b.tokens,
         { b with tokens :=
             if (QR.ofInt 1).le b.tokens then b.tokens.sub (QR.ofInt 1) else b.tokens })) ∧
    (∀ (c r now : QR),
      (newTokenBucket c r).lastUpdate = none ∧ (newTokenBucket c r).tokens = c ∧
      (newTokenBucket c r).allow now =
        ((QR.ofInt 1).le c,
         { capacity := c, rate := r,
           tokens := if (QR.ofInt 1).le c then c.sub (QR.ofInt 1) else c,
           lastUpdate := some now })) ∧
    runAllows (newTokenBucket (QR.ofInt 2) (QR.ofInt 1))
        [QR.ofInt 0, QR.ofInt 0, QR.ofInt 0, ⟨3, 2, by norm_num⟩] =
      [true, true, false, true] := by
  refine ⟨?_, ?_, ?_, by decide⟩
  · intro b now t hl hlt
    simp only [TokenBucket.allow, hl]
    rw [qr_zero_lt_sub, hlt]
    simp only [if_true]
    split <;> rename_i h <;> simp [h]
  · intro b now hl
    simp only [TokenBucket.allow, hl]
    rw [qr_sub_self_not_lt]
    simp only [Bool.false_eq_true, if_false]
    split <;> rename_i h <;> simp [h]
  · intro c r now
    refine ⟨rfl, rfl, ?_⟩
    simp only [TokenBucket.allow, newTokenBucket]
    rw [qr_sub_self_not_lt]
    simp only [Bool.false_eq_true, if_false]
    split <;> rename_i h <;> simp [h]

/-- C7 witness: a bucket with one token, rate 1, observed 2 seconds ago:
refills to capacity 2, consumes one. -/
theorem c7_tokenBucket_allow_witness :
    TokenBucket.allow ⟨QR.ofInt 2, QR.ofInt 1, QR.ofInt 1, some (QR.ofInt 0)⟩ (QR.ofInt 2) =
      ((QR.ofInt 1).le ((QR.ofInt 2).fmin ((QR.ofInt 1).add
          (((QR.ofInt 2).sub (QR.ofInt 0)).mul (QR.ofInt 1)))),
       { capacity := QR.ofInt 2, rate := QR.ofInt 1,
         tokens :=
           if (QR.ofInt 1).le ((QR.ofInt 2).fmin ((QR.ofInt 1).add
                (((QR.ofInt 2).sub (QR.ofInt 0)).mul (QR.ofInt 1))))
           then ((QR.ofInt 2).fmin ((QR.ofInt 1).add
                (((QR.ofInt 2).sub (QR.ofInt 0)).mul (QR.ofInt 1)))).sub (QR.ofInt 1)
           else (QR.ofInt 2).fmin ((QR.ofInt 1).add
                (((QR.ofInt 2).sub (QR.ofInt 0)).mul (QR.ofInt 1))),
         lastUpdate := some (QR.ofInt 2) }) :=
  c7_tokenBucket_allow.1 ⟨QR.ofInt 2, QR.ofInt 1, QR.ofInt 1, some (QR.ofInt 0)⟩
    (QR.ofInt 2) (QR.ofInt 0) rfl (by decide)

lemma evalPred_ok (p : CompiledPred) (args : Args) : ∃ b, evalPred p args = .ok b := by
  cases p with
  | inSet field values =>
    cases h : lookupArg args field <;> simp [evalPred, h]
  | containsSub field needle =>
    cases h : lookupArg args field <;> simp [evalPred, h]
  | cmp field op rhsRaw numRHS =>
    cases h : lookupArg args field with
    | none => simp [evalPred, h]
    | some v =>
      cases numRHS with
      | some n => cases hn : toNumber v <;> simp [evalPred, h, hn]
      | none =>
        cases op <;> simp [evalPred, h]
        exact em _

/-- C10.  Every predicate produced by `CompilePredicates` evaluates with a
nil error on every `args` map (missing fields, unconvertible left-hand
values and the unsupported string-path operators all yield `false` rather
than an error), so the engine's `allPredicates` conjunction never aborts
with an evaluator error. -/
theorem c10_predicates_never_error (exprs : List String) (preds : List CompiledPred)
    (_hc : compilePredicates exprs = .ok preds) (args : Args) :
    (∀ p ∈ preds, ∃ b, evalPred p args = .ok b) ∧
    (∃ b, allPredicates preds args = .ok b) := by
  refine ⟨fun p _ => evalPred_ok p args, ?_⟩
  clear _hc
  induction preds with
  | nil => exact ⟨true, rfl⟩
  | cons p rest ih =>
    obtain ⟨b, hb⟩ := evalPred_ok p args
    obtain ⟨b', hb'⟩ := ih
    cases b with
    | false => exact ⟨false, by simp [allPredicates, hb]⟩
    | true => exact ⟨b', by simp [allPredicates, hb, hb']⟩

/-- C10 witness: the predicates of the repository's example rule, applied
to an argument map that exercises the missing-field and string paths. -/
theorem c10_predicates_never_error_witness :
    compilePredicates ["value > 10", "sender in a,b,c", "status == ok"] =
      .ok [.cmp "value" .gt "10" (some ⟨10, 1, by norm_num⟩),
           .inSet "sender" ["a", "b", "c"],
           .cmp "status" .eq "ok" none] ∧
    (∃ b, allPredicates [CompiledPred.cmp "value" .gt "10" (some ⟨10, 1, by norm_num⟩),
           .inSet "sender" ["a", "b", "c"],
           .cmp "status" .eq "ok" none] [("memo", .vOther)] = .ok b) := by
  refine ⟨by decide, ?_⟩
  exact (c10_predicates_never_error ["value > 10", "sender in a,b,c", "status == ok"]
    [.cmp "value" .gt "10" (some ⟨10, 1, by norm_num⟩),
     .inSet "sender" ["a", "b", "c"],
     .cmp "status" .eq "ok" none] (by decide) [("memo", .vOther)]).2

/-- C3.  Evaluating the spec's own example threshold against a 256-bit
integer argument: the go-ethereum decoder yields a `*big.Int` for a uint256
event argument, `toNumber`'s type switch has no big-integer case (it takes
the default branch and reports failure), so the compiled predicate
`value >= 1_000_000 * 1e6` evaluates to `false` even though the argument
value 10^12 equals the threshold and the comparison should hold.  There is
no integer-comparison path anywhere in the evaluator: every conversion
targets Go float64. -/
theorem c3_bigint_comparison_fails :
    compile "value >= 1_000_000 * 1e6" =
      .ok (.cmp "value" .ge "1_000_000 * 1e6" (some ⟨1000000000000, 1, by norm_num⟩)) ∧
    toNumber (GoValue.vBigInt 1000000000000) = none ∧
    evalPred (.cmp "value" .ge "1_000_000 * 1e6" (some ⟨1000000000000, 1, by norm_num⟩))
        [("value", .vBigInt 1000000000000)] = .ok false ∧
    cmpNum .ge (QR.ofInt 1000000000000) ⟨1000000000000, 1, by norm_num⟩ = true := by
  refine ⟨by decide, by decide, by decide, by decide⟩

/-! ## Engine fixtures (mirroring the repository's own runner tests) -/

/-- A rule with one sink and no dedupe.  (`config.Rule` has no rate-limit
field in the source, so none can be represented here either.) -/
def noDedupeRule : Rule :=
  { id := "r1", source := "evm_main", whereExprs := ["value > 10"],
    sinks := ["s1"], dedupe := none }

def noDedupeExec : RuleExec :=
  { rule := noDedupeRule,
    preds := [.cmp "value" .gt "10" (some ⟨10, 1, by norm_num⟩)],
    ttl := QR.ofInt 0 }

def rsSingleSink : RunnerState :=
  { rules := [("r1", noDedupeExec)], sinkIDs := ["s1"], dryRun := false,
    store := ⟨[], []⟩ }

/-- The event of TestRunnerPredicatesAndDryRun / TestRunnerRateLimit:
rule `r1`, tx hash `0x1`, `value = 20`. -/
def evSimple : Event :=
  { ruleID := "r1", chain := "evm", sourceID := "evm_main", height := 1,
    hash := "0xh1", txHash := "0x1", logIndex := none, appID := 0,
    args := [("value", .vInt 20)] }

/-- The dedupe rule of TestRunnerPredicatesAndDryRun: dedupe key `txhash`,
TTL `1h`, two sinks. -/
def dedupRule : Rule :=
  { id := "r1", source := "evm_main", whereExprs := ["value > 10"],
    sinks := ["s1", "s2"], dedupe := some ⟨"txhash", "1h"⟩ }

/-- `ttl` is `time.ParseDuration("1h")` in seconds. -/
def dedupExec : RuleExec :=
  { rule := dedupRule,
    preds := [.cmp "value" .gt "10" (some ⟨10, 1, by norm_num⟩)],
    ttl := QR.ofInt 3600 }

def rs9 : RunnerState :=
  { rules := [("r1", dedupExec)], sinkIDs := ["s1", "s2"], dryRun := true,
    store := ⟨[], []⟩ }

/-- The state after the first (dry-run) submission: one dedupe row for
`0x1`, expiring at t = 3600. -/
def rs9a : RunnerState :=
  { rs9 with store := ⟨[], [("0x1", ⟨3600, 1, by norm_num⟩)]⟩ }

/-- rs9a with dry-run disabled. -/
def rs9b : RunnerState := { rs9a with dryRun := false }

/-- C4 counterexample.  An event that passes predicates (no dedupe, no
dry-run) and is delivered to its configured sink produces exactly one sink
send and no ledger rows: the event-handling path of the engine never
invokes InsertAlert or InsertSend. -/
theorem c4_counterexample_no_ledger_rows :
    handleEvents rsSingleSink (QR.ofInt 0) [evSimple] =
      .ok (rsSingleSink, [.send "s1" "r1" "0x1"]) ∧
    ([REffect.send "s1" "r1" "0x1"].countP REffect.isSend = 1) ∧
    ([REffect.send "s1" "r1" "0x1"].countP REffect.isInsertAlert = 0) ∧
    ([REffect.send "s1" "r1" "0x1"].countP REffect.isInsertSend = 0) := by
  refine ⟨by decide, by decide, by decide, by decide⟩

lemma sends_no_inserts (sinks ids : List String) (rid tx : String) :
    ∀ f ∈ sinks.filterMap (fun sid =>
        if ids.contains sid then some (REffect.send sid rid tx) else none),
      f.isInsertAlert = false ∧ f.isInsertSend = false := by
  intro f hf
  simp only [List.mem_filterMap] at hf
  obtain ⟨sid, _, heq⟩ := hf
  split at heq
  · cases heq
    exact ⟨rfl, rfl⟩
  · cases heq

lemma handleOneEvent_no_inserts (rs : RunnerState) (now : QR) (ev : Event)
    (out : RunnerState × List REffect) (h : handleOneEvent rs now ev = .ok out) :
    ∀ f ∈ out.2, f.isInsertAlert = false ∧ f.isInsertSend = false := by
  simp only [handleOneEvent] at h
  split at h
  · -- rule not found
    cases h
    simp
  · -- rule found
    split at h
    · cases h; simp
    · cases h; simp
    · -- predicates pass
      split at h
      · -- afterDedupe errored
        cases h
      · -- duplicate: skip
        split at h
        · cases h
          intro f hf
          simp only [List.mem_singleton] at hf
          subst hf
          exact ⟨rfl, rfl⟩
        · cases h
          simp
      · -- not a duplicate (or no dedupe): deliver unless dry-run
        rename_i rs' effs heffs
        -- first, characterize effs from the inner dedupe computation
        have heffshape : ∀ f ∈ effs, f.isInsertAlert = false ∧ f.isInsertSend = false := by
          split at heffs
          · cases heffs; simp
          · split at heffs
            · cases heffs
            · cases heffs
            · split at heffs
              · cases heffs
              · cases heffs
                intro f hf
                simp only [List.mem_cons, List.mem_singleton] at hf
                rcases hf with rfl | rfl | hf
                · exact ⟨rfl, rfl⟩
                · exact ⟨rfl, rfl⟩
                · cases hf
        split at h
        · cases h
          exact heffshape
        · cases h
          intro f hf
          rcases List.mem_append.mp hf with hf | hf
          · exact heffshape f hf
          · exact sends_no_inserts _ _ _ _ f hf

lemma handleEvents_no_inserts (rs : RunnerState) (now : QR) (events : List Event)
    (out : RunnerState × List REffect) (h : handleEvents rs now events = .ok out) :
    ∀ f ∈ out.2, f.isInsertAlert = false ∧ f.isInsertSend = false := by
  induction events generalizing rs out with
  | nil =>
    simp only [handleEvents] at h
    cases h
    simp
  | cons ev rest ih =>
    simp only [handleEvents] at h
    split at h
    · cases h
    · rename_i rs1 effs1 hone
      split at h
      · cases h
      · rename_i rs2 effs2 hrest
        cases h
        intro f hf
        rcases List.mem_append.mp hf with hf | hf
        · exact handleOneEvent_no_inserts rs now ev (rs1, effs1) hone f hf
        · exact ih _ _ hrest f hf

/-- C4 as amended.  For every event that passes predicates and dedupe and is
delivered (not dry-run), the engine performs one sink `Send` per configured
sink present in the sink table — and records nothing in the ledger: no
execution of `handleEvents` ever produces an InsertAlert or InsertSend
ledger write (those store operations exist but are not invoked on the
event-handling path).  The second conjunct covers a rule without dedupe;
the third covers a rule with a configured dedupe when the check passes
(`IsDuplicate` reports false and the key is marked): delivery then adds the
dedupe probe and mark to the trace — still no InsertAlert/InsertSend. -/
theorem c4_amended_sends_without_ledger_rows :
    (∀ (rs : RunnerState) (now : QR) (events : List Event)
        (out : RunnerState × List REffect),
      handleEvents rs now events = .ok out →
      out.2.countP REffect.isInsertAlert = 0 ∧ out.2.countP REffect.isInsertSend = 0) ∧
    (∀ (rs : RunnerState) (now : QR) (ev : Event) (exec : RuleExec),
      lookupRule rs.rules ev.ruleID = some exec →
      allPredicates exec.preds ev.args = .ok true →
      exec.rule.dedupe = none →
      rs.dryRun = false →
      handleEvents rs now [ev] =
        .ok (rs, exec.rule.sinks.filterMap (fun sid =>
          if rs.sinkIDs.contains sid then some (.send sid exec.rule.id ev.txHash)
          else none))) ∧
    (∀ (rs : RunnerState) (now : QR) (ev : Event) (exec : RuleExec)
        (d : DedupeCfg) (key : String) (exp : QR) (st1 st2 : StoreState),
      lookupRule rs.rules ev.ruleID = some exec →
      allPredicates exec.preds ev.args = .ok true →
      exec.rule.dedupe = some d →
      key = buildDedupeKey d.key ev →
      exp = (if exec.ttl = QR.ofInt 0 then now.add (QR.ofInt 86400)
             else now.add exec.ttl) →
      isDuplicate rs.store key now = .ok (false, st1) →
      markDedupe st1 key exp = .ok st2 →
      rs.dryRun = false →
      handleEvents rs now [ev] =
        .ok ({ rs with store := st2 },
          [REffect.isDup key false, REffect.markDedupe key exp] ++
            exec.rule.sinks.filterMap (fun sid =>
              if rs.sinkIDs.contains sid then some (.send sid exec.rule.id ev.txHash)
              else none))) := by
  refine ⟨?_, ?_, ?_⟩
  · intro rs now events out h
    have hall := handleEvents_no_inserts rs now events out h
    constructor
    · exact List.countP_eq_zero.mpr (fun f hf => by simp [(hall f hf).1])
    · exact List.countP_eq_zero.mpr (fun f hf => by simp [(hall f hf).2])
  · intro rs now ev exec hrule hpred hded hdry
    simp only [handleEvents, handleOneEvent, hrule, hpred, hded, hdry]
    simp
  · intro rs now ev exec d key exp st1 st2 hrule hpred hded hkey hexp hdup hmark hdry
    subst hkey
    subst hexp
    simp only [handleEvents, handleOneEvent, hrule, hpred, hded, hdup, hmark, hdry]
    simp

/-- The runner state of the C4 dedupe-passing witness: the dedupe rule with
two sinks, dry-run off, empty ledger. -/
def rsDedupeLive : RunnerState :=
  { rules := [("r1", dedupExec)], sinkIDs := ["s1", "s2"], dryRun := false,
    store := ⟨[], []⟩ }

/-- C4 amended witness: the single-sink fixture (no dedupe) delivers one
send, and the dedupe-configured fixture passes the dedupe check, marks the
key, and delivers one send per sink. -/
theorem c4_amended_sends_without_ledger_rows_witness :
    (handleEvents rsSingleSink (QR.ofInt 0) [evSimple] =
      .ok (rsSingleSink, noDedupeRule.sinks.filterMap (fun sid =>
        if rsSingleSink.sinkIDs.contains sid
        then some (.send sid noDedupeRule.id evSimple.txHash) else none))) ∧
    (handleEvents rsDedupeLive (QR.ofInt 0) [evSimple] =
      .ok ({ rsDedupeLive with store := ⟨[], [("0x1", (QR.ofInt 0).add (QR.ofInt 3600))]⟩ },
        [REffect.isDup "0x1" false,
         REffect.markDedupe "0x1" ((QR.ofInt 0).add (QR.ofInt 3600))] ++
          dedupRule.sinks.filterMap (fun sid =>
            if rsDedupeLive.sinkIDs.contains sid
            then some (.send sid dedupRule.id evSimple.txHash) else none))) :=
  ⟨c4_amended_sends_without_ledger_rows.2.1 rsSingleSink (QR.ofInt 0) evSimple
      noDedupeExec (by decide) (by decide) (by decide) (by decide),
   c4_amended_sends_without_ledger_rows.2.2 rsDedupeLive (QR.ofInt 0) evSimple
      dedupExec ⟨"txhash", "1h"⟩ "0x1" ((QR.ofInt 0).add (QR.ofInt 3600))
      ⟨[], []⟩ ⟨[], [("0x1", (QR.ofInt 0).add (QR.ofInt 3600))]⟩
      (by decide) (by decide) (by decide) (by decide) (by decide)
      (by decide) (by decide) (by decide)⟩

/-- C8.  The rate-limit setup of the repository's own TestRunnerRateLimit
(capacity 2, rate 1/s): three identical events handled at the same instant
produce three sink sends — the event-handling path consults no token bucket
(`config.Rule` has no rate-limit field and `handleEvents` never calls
`TokenBucket.allow`), so the claimed bound C + ⌊r·Δt⌋ = 2 for Δt = 0 is
exceeded. -/
theorem c8_no_rate_limiting_three_sends :
    handleEvents rsSingleSink (QR.ofInt 0) [evSimple, evSimple, evSimple] =
      .ok (rsSingleSink,
        [.send "s1" "r1" "0x1", .send "s1" "r1" "0x1", .send "s1" "r1" "0x1"]) ∧
    ([REffect.send "s1" "r1" "0x1", .send "s1" "r1" "0x1",
      .send "s1" "r1" "0x1"].countP REffect.isSend = 3) := by
  refine ⟨by decide, by decide⟩

/-- C9.  The dedupe and dry-run scenario (rule with dedupe key `txhash`, TTL
1h, two sinks): the first dry-run submission marks the dedupe key before the
dry-run gate is consulted, so both dry-run submissions produce no sends and
one dedupe row — and after disabling dry-run, both further submissions (at
t = 2s and t = 3s, well inside the TTL) are also suppressed as duplicates,
yielding zero sink sends where the claim (and the repository's own
TestRunnerPredicatesAndDryRun) expects one send per sink. -/
theorem c9_dry_run_poisons_dedupe :
    compilePredicates dedupRule.whereExprs = .ok dedupExec.preds ∧
    handleEvents rs9 (QR.ofInt 0) [evSimple] =
      .ok (rs9a, [.isDup "0x1" false, .markDedupe "0x1" ⟨3600, 1, by norm_num⟩]) ∧
    handleEvents rs9a (QR.ofInt 1) [evSimple] = .ok (rs9a, [.isDup "0x1" true]) ∧
    rs9a.store.dedupe = [("0x1", ⟨3600, 1, by norm_num⟩)] ∧
    handleEvents rs9b (QR.ofInt 2) [evSimple] = .ok (rs9b, [.isDup "0x1" true]) ∧
    handleEvents rs9b (QR.ofInt 3) [evSimple] = .ok (rs9b, [.isDup "0x1" true]) ∧
    ([REffect.isDup "0x1" false, .markDedupe "0x1" ⟨3600, 1, by norm_num⟩].countP
        REffect.isSend = 0) ∧
    ([REffect.isDup "0x1" true].countP REffect.isSend = 0) := by
  refine ⟨by decide, by decide, by decide, by decide, by decide, by decide, by decide, by decide⟩

lemma evm_reorg_rewind (sc : EvmScanner) (client : EvmClient) (st : StoreState)
    (h : Nat) (hs : String) (lh hd : Header)
    (hsid : sc.sourceID ≠ "")
    (hcur : getCursor st sc.sourceID = (h, hs, true))
    (hlat : client.latest = some lh)
    (hconf : sc.confirmations ≤ lh.number)
    (hgate : (h + 1) % U64 ≤ lh.number - sc.confirmations)
    (hhd : client.headerAt ((h + 1) % U64) = some hd)
    (hne : hd.parentHash ≠ hs) :
    (evmProcessNext sc client st).1 = .error .reorgDetected ∧
    getCursor (evmProcessNext sc client st).2.1 sc.sourceID =
      (max 0 ((h + 1) % U64 - 1), hd.parentHash, true) := by
  have h1 : ¬(0 < sc.confirmations ∧ lh.number < sc.confirmations) := by omega
  have h2 : ¬(lh.number - sc.confirmations < (h + 1) % U64) := by omega
  by_cases ht : 0 < (h + 1) % U64
  · simp [evmProcessNext, hcur, hlat, h1, h2, hhd, hne, upsertCursor, hsid, ht,
      getCursor_upsertRow, Nat.zero_max]
  · simp [evmProcessNext, hcur, hlat, h1, h2, hhd, hne, upsertCursor, hsid, ht,
      getCursor_upsertRow]
    omega

lemma algo_reorg_rewind (sc : AlgoScanner) (client : AlgoClient) (st : StoreState)
    (h : Nat) (hs : String) (latest : Nat) (blk : AlgoBlock)
    (hsid : sc.sourceID ≠ "")
    (hcur : getCursor st sc.sourceID = (h, hs, true))
    (hlat : client.status = some latest)
    (hconf : sc.confirmations ≤ latest)
    (hgate : (h + 1) % U64 ≤ latest - sc.confirmations)
    (hblk : client.blockAt ((h + 1) % U64) = some blk)
    (hne : blk.branch ≠ hs) :
    (algoProcessNext sc client st).1 = .error .reorgDetected ∧
    getCursor (algoProcessNext sc client st).2.1 sc.sourceID =
      (max 0 ((h + 1) % U64 - 1), blk.branch, true) := by
  have h1 : ¬(0 < sc.confirmations ∧ latest < sc.confirmations) := by omega
  have h2 : ¬(latest - sc.confirmations < (h + 1) % U64) := by omega
  by_cases ht : 0 < (h + 1) % U64
  · simp [algoProcessNext, hcur, hlat, h1, h2, hblk, hne, upsertCursor, hsid, ht,
      getCursor_upsertRow, Nat.zero_max]
  · simp [algoProcessNext, hcur, hlat, h1, h2, hblk, hne, upsertCursor, hsid, ht,
      getCursor_upsertRow]
    omega

/-- C1.  Reorg detection and rewind, for both scanners: whenever a cursor
`(h, hs)` exists and the parent hash observed in the fetched block at the
target height `(h+1) mod 2^64` differs from `hs`, `ProcessNext` overwrites
the cursor to height `max(0, target − 1)` with the observed parent hash,
returns the distinguished `ReorgDetected` error, and returns no events (the
error return carries no event list). -/
theorem c1_reorg_rewrites_cursor :
    (∀ (sc : EvmScanner) (client : EvmClient) (st : StoreState)
       (h : Nat) (hs : String) (lh hd : Header),
      sc.sourceID ≠ "" →
      getCursor st sc.sourceID = (h, hs, true) →
      client.latest = some lh →
      sc.confirmations ≤ lh.number →
      (h + 1) % U64 ≤ lh.number - sc.confirmations →
      client.headerAt ((h + 1) % U64) = some hd →
      hd.parentHash ≠ hs →
      (evmProcessNext sc client st).1 = .error .reorgDetected ∧
      getCursor (evmProcessNext sc client st).2.1 sc.sourceID =
        (max 0 ((h + 1) % U64 - 1), hd.parentHash, true)) ∧
    (∀ (sc : AlgoScanner) (client : AlgoClient) (st : StoreState)
       (h : Nat) (hs : String) (latest : Nat) (blk : AlgoBlock),
      sc.sourceID ≠ "" →
      getCursor st sc.sourceID = (h, hs, true) →
      client.status = some latest →
      sc.confirmations ≤ latest →
      (h + 1) % U64 ≤ latest - sc.confirmations →
      client.blockAt ((h + 1) % U64) = some blk →
      blk.branch ≠ hs →
      (algoProcessNext sc client st).1 = .error .reorgDetected ∧
      getCursor (algoProcessNext sc client st).2.1 sc.sourceID =
        (max 0 ((h + 1) % U64 - 1), blk.branch, true)) :=
  ⟨fun sc client st h hs lh hd h1 h2 h3 h4 h5 h6 h7 =>
    evm_reorg_rewind sc client st h hs lh hd h1 h2 h3 h4 h5 h6 h7,
   fun sc client st h hs latest blk h1 h2 h3 h4 h5 h6 h7 =>
    algo_reorg_rewind sc client st h hs latest blk h1 h2 h3 h4 h5 h6 h7⟩

/-! C1 witness fixtures: the reorg scenario of the repository's own
TestScannerReorgDetection (cursor at (1, "0xparent"), header at 2 with
parent "0xother"), and its Algorand counterpart. -/

def evmReorgClient : EvmClient :=
  { latest := some ⟨2, "0xh2", "0xother"⟩,
    headerAt := fun n => if n = 2 then some ⟨2, "0xh2", "0xother"⟩ else none,
    filterLogs := fun _ _ => some [] }

def evmReorgStore : StoreState := ⟨[("evm_main", 1, "0xparent")], []⟩

def evmReorgScanner : EvmScanner :=
  { sourceID := "evm_main", startBlock := "", confirmations := 0,
    matchers := [], addresses := [] }

def algoReorgClient : AlgoClient :=
  { status := some 2,
    blockAt := fun n => if n = 2 then some ⟨"OTHERHASH", []⟩ else none,
    blockHashAt := fun _ => some "H2" }

def algoReorgStore : StoreState := ⟨[("algo_main", 1, "PARENTHASH")], []⟩

def algoReorgScanner : AlgoScanner :=
  { sourceID := "algo_main", startRound := "", confirmations := 0, matchers := [] }

/-- C1 witness: both scanners, on the seeded reorg fixtures, return
`ReorgDetected` with the cursor rewritten to `(1, observed parent)`. -/
theorem c1_reorg_rewrites_cursor_witness :
    ((evmProcessNext evmReorgScanner evmReorgClient evmReorgStore).1 =
        .error .reorgDetected ∧
      getCursor (evmProcessNext evmReorgScanner evmReorgClient evmReorgStore).2.1
        "evm_main" = (max 0 ((1 + 1) % U64 - 1), "0xother", true)) ∧
    ((algoProcessNext algoReorgScanner algoReorgClient algoReorgStore).1 =
        .error .reorgDetected ∧
      getCursor (algoProcessNext algoReorgScanner algoReorgClient algoReorgStore).2.1
        "algo_main" = (max 0 ((1 + 1) % U64 - 1), "OTHERHASH", true)) :=
  ⟨c1_reorg_rewrites_cursor.1 evmReorgScanner evmReorgClient evmReorgStore
      1 "0xparent" ⟨2, "0xh2", "0xother"⟩ ⟨2, "0xh2", "0xother"⟩
      (by decide) (by decide) rfl (by decide) (by decide) (by decide) (by decide),
   c1_reorg_rewrites_cursor.2 algoReorgScanner algoReorgClient algoReorgStore
      1 "PARENTHASH" 2 ⟨"OTHERHASH", []⟩
      (by decide) (by decide) rfl (by decide) (by decide) (by decide) (by decide)⟩

lemma evm_gate_no_fetch (sc : EvmScanner) (client : EvmClient) (st : StoreState)
    (lh : Header) (t : Nat)
    (hlat : client.latest = some lh)
    (htarget : (if (getCursor st sc.sourceID).2.2
        then Except.ok (((getCursor st sc.sourceID).1 + 1) % U64)
        else resolveStartHeight sc.startBlock (lh.number - sc.confirmations)) =
      Except.ok t)
    (hgt : t > lh.number - sc.confirmations) :
    evmProcessNext sc client st =
      (.ok [], st, [SEffect.getCursor sc.sourceID, SEffect.fetchLatest]) := by
  by_cases hearly : 0 < sc.confirmations ∧ lh.number < sc.confirmations
  · simp [evmProcessNext, hlat, hearly]
  · simp [evmProcessNext, hlat, hearly, htarget, hgt]

lemma algo_gate_no_fetch (sc : AlgoScanner) (client : AlgoClient) (st : StoreState)
    (latest : Nat) (t : Nat)
    (hlat : client.status = some latest)
    (htarget : (if (getCursor st sc.sourceID).2.2
        then Except.ok (((getCursor st sc.sourceID).1 + 1) % U64)
        else resolveStartHeight sc.startRound (latest - sc.confirmations)) =
      Except.ok t)
    (hgt : t > latest - sc.confirmations) :
    algoProcessNext sc client st =
      (.ok [], st, [SEffect.getCursor sc.sourceID, SEffect.fetchLatest]) := by
  by_cases hearly : 0 < sc.confirmations ∧ latest < sc.confirmations
  · simp [algoProcessNext, hlat, hearly]
  · simp [algoProcessNext, hlat, hearly, htarget, hgt]

/-- C5.  The confirmation gate, for both scanners.  The safe head is
`latest - k` in Go's guarded uint64 arithmetic, which is exactly
`max(0, latest − k)` (Lean's truncated Nat subtraction).  Whenever the
computed target (cursor + 1, or the resolved start height) exceeds the safe
head, `ProcessNext` returns no events and no error, the store is untouched,
and the effect trace records only the cursor read and the latest-head
probe: no block, header, or log fetch happens. -/
theorem c5_confirmation_gate :
    (∀ (sc : EvmScanner) (client : EvmClient) (st : StoreState) (lh : Header) (t : Nat),
      client.latest = some lh →
      (if (getCursor st sc.sourceID).2.2
        then Except.ok (((getCursor st sc.sourceID).1 + 1) % U64)
        else resolveStartHeight sc.startBlock (lh.number - sc.confirmations)) =
          Except.ok t →
      t > lh.number - sc.confirmations →
      evmProcessNext sc client st =
        (.ok [], st, [SEffect.getCursor sc.sourceID, SEffect.fetchLatest])) ∧
    (∀ (sc : AlgoScanner) (client : AlgoClient) (st : StoreState) (latest t : Nat),
      client.status = some latest →
      (if (getCursor st sc.sourceID).2.2
        then Except.ok (((getCursor st sc.sourceID).1 + 1) % U64)
        else resolveStartHeight sc.startRound (latest - sc.confirmations)) =
          Except.ok t →
      t > latest - sc.confirmations →
      algoProcessNext sc client st =
        (.ok [], st, [SEffect.getCursor sc.sourceID, SEffect.fetchLatest])) :=
  ⟨fun sc client st lh t h1 h2 h3 => evm_gate_no_fetch sc client st lh t h1 h2 h3,
   fun sc client st latest t h1 h2 h3 => algo_gate_no_fetch sc client st latest t h1 h2 h3⟩

/-- C5 witness: cursor at height 5, head at 6, three confirmations — the
target 6 exceeds the safe head 3 on both chains; nothing is fetched. -/
theorem c5_confirmation_gate_witness :
    evmProcessNext ⟨"evm_main", "", 3, [], []⟩ evmReorgClient
        ⟨[("evm_main", 5, "0xh5")], []⟩ =
      (.ok [], ⟨[("evm_main", 5, "0xh5")], []⟩,
       [SEffect.getCursor "evm_main", SEffect.fetchLatest]) ∧
    algoProcessNext ⟨"algo_main", "", 3, []⟩ algoReorgClient
        ⟨[("algo_main", 5, "H5")], []⟩ =
      (.ok [], ⟨[("algo_main", 5, "H5")], []⟩,
       [SEffect.getCursor "algo_main", SEffect.fetchLatest]) := by
  constructor
  · refine c5_confirmation_gate.1 ⟨"evm_main", "", 3, [], []⟩ evmReorgClient
      ⟨[("evm_main", 5, "0xh5")], []⟩ ⟨2, "0xh2", "0xother"⟩ 6 rfl (by decide) (by decide)
  · refine c5_confirmation_gate.2 ⟨"algo_main", "", 3, []⟩ algoReorgClient
      ⟨[("algo_main", 5, "H5")], []⟩ 2 6 rfl (by decide) (by decide)

lemma evm_success_shape (sc : EvmScanner) (client : EvmClient) (st : StoreState)
    (evs : List NEvent) (st' : StoreState) (tr : List SEffect)
    (heq : evmProcessNext sc client st = (.ok evs, st', tr))
    (hne : evs ≠ []) :
    ∃ t hd, client.headerAt t = some hd ∧
      (∀ e ∈ evs, e.height = t ∧ e.hash = hd.hash) ∧
      getCursor st' sc.sourceID = (t, hd.hash, true) ∧
      tr = [SEffect.getCursor sc.sourceID, SEffect.fetchLatest, .fetchHeader t,
            .fetchLogs t, .upsertCursor sc.sourceID t hd.hash] := by
  simp only [evmProcessNext] at heq
  split at heq
  · simp at heq
  · rename_i lh hlat
    split at heq
    · simp at heq
      exact absurd heq.1 hne
    · split at heq
      · simp at heq
      · rename_i target htarget
        split at heq
        · simp at heq
          exact absurd heq.1 hne
        · split at heq
          · simp at heq
          · rename_i header hheader
            split at heq
            · simp at heq
            · split at heq
              · simp at heq
              · rename_i logs hlogs
                split at heq
                · simp at heq
                · rename_i evlist hmatch
                  split at heq
                  · simp at heq
                  · rename_i st2 hupsert
                    simp only [Prod.mk.injEq, Except.ok.injEq] at heq
                    obtain ⟨hevs, hst', htr⟩ := heq
                    subst hevs hst' htr
                    refine ⟨target, header, hheader, ?_, ?_, by simp⟩
                    · intro e he
                      exact mem_stampEvents he
                    · simp only [upsertCursor] at hupsert
                      split at hupsert
                      · cases hupsert
                      · cases hupsert
                        exact getCursor_upsertRow st sc.sourceID target header.hash

lemma algo_success_shape (sc : AlgoScanner) (client : AlgoClient) (st : StoreState)
    (evs : List NEvent) (st' : StoreState) (tr : List SEffect)
    (heq : algoProcessNext sc client st = (.ok evs, st', tr))
    (hne : evs ≠ []) :
    ∃ t bh, client.blockHashAt t = some bh ∧
      (∀ e ∈ evs, e.height = t ∧ e.hash = bh) ∧
      getCursor st' sc.sourceID = (t, bh, true) ∧
      tr = [SEffect.getCursor sc.sourceID, SEffect.fetchLatest, .fetchBlock t,
            .fetchBlockHash t, .upsertCursor sc.sourceID t bh] := by
  simp only [algoProcessNext] at heq
  split at heq
  · simp at heq
  · rename_i latest hlat
    split at heq
    · simp at heq
      exact absurd heq.1 hne
    · split at heq
      · simp at heq
      · rename_i target htarget
        split at heq
        · simp at heq
          exact absurd heq.1 hne
        · split at heq
          · simp at heq
          · rename_i blk hblk
            split at heq
            · simp at heq
            · split at heq
              · simp at heq
              · rename_i bh hbh
                split at heq
                · simp at heq
                · rename_i evlist hmatch
                  split at heq
                  · simp at heq
                  · rename_i st2 hupsert
                    simp only [Prod.mk.injEq, Except.ok.injEq] at heq
                    obtain ⟨hevs, hst', htr⟩ := heq
                    subst hevs hst' htr
                    refine ⟨target, bh, hbh, ?_, ?_, by simp⟩
                    · intro e he
                      exact mem_stampEvents he
                    · simp only [upsertCursor] at hupsert
                      split at hupsert
                      · cases hupsert
                      · cases hupsert
                        exact getCursor_upsertRow st sc.sourceID target bh

/-- C2.  A successful `ProcessNext` that returns events, for both scanners:
every returned event carries the processed target height and the fetched
block hash, the cursor is upserted to exactly that `(target, hash)` pair,
and that upsert is the final persistent effect of the tick — it is the last
entry (and the only write) of the effect trace, coming after every fetch,
with the event list already assembled. -/
theorem c2_success_stamps_and_cursor_last :
    (∀ (sc : EvmScanner) (client : EvmClient) (st : StoreState)
       (evs : List NEvent) (st' : StoreState) (tr : List SEffect),
      evmProcessNext sc client st = (.ok evs, st', tr) →
      evs ≠ [] →
      ∃ t hd, client.headerAt t = some hd ∧
        (∀ e ∈ evs, e.height = t ∧ e.hash = hd.hash) ∧
        getCursor st' sc.sourceID = (t, hd.hash, true) ∧
        tr = [SEffect.getCursor sc.sourceID, SEffect.fetchLatest, .fetchHeader t,
              .fetchLogs t, .upsertCursor sc.sourceID t hd.hash] ∧
        tr.getLast? = some (.upsertCursor sc.sourceID t hd.hash) ∧
        tr.filter SEffect.isWrite = [.upsertCursor sc.sourceID t hd.hash]) ∧
    (∀ (sc : AlgoScanner) (client : AlgoClient) (st : StoreState)
       (evs : List NEvent) (st' : StoreState) (tr : List SEffect),
      algoProcessNext sc client st = (.ok evs, st', tr) →
      evs ≠ [] →
      ∃ t bh, client.blockHashAt t = some bh ∧
        (∀ e ∈ evs, e.height = t ∧ e.hash = bh) ∧
        getCursor st' sc.sourceID = (t, bh, true) ∧
        tr = [SEffect.getCursor sc.sourceID, SEffect.fetchLatest, .fetchBlock t,
              .fetchBlockHash t, .upsertCursor sc.sourceID t bh] ∧
        tr.getLast? = some (.upsertCursor sc.sourceID t bh) ∧
        tr.filter SEffect.isWrite = [.upsertCursor sc.sourceID t bh]) := by
  constructor
  · intro sc client st evs st' tr heq hne
    obtain ⟨t, hd, h1, h2, h3, h4⟩ := evm_success_shape sc client st evs st' tr heq hne
    refine ⟨t, hd, h1, h2, h3, h4, ?_, ?_⟩ <;> subst h4 <;> simp [SEffect.isWrite]
  · intro sc client st evs st' tr heq hne
    obtain ⟨t, bh, h1, h2, h3, h4⟩ := algo_success_shape sc client st evs st' tr heq hne
    refine ⟨t, bh, h1, h2, h3, h4, ?_, ?_⟩ <;> subst h4 <;> simp [SEffect.isWrite]

/-! C2 witness fixtures: the happy paths of the repository's own scanner
tests (one Transfer log at height 1; one app call at round 1). -/

def evmBaseEvent : NEvent :=
  { chain := "", sourceID := "", ruleID := "usdc_whale", height := 0, hash := "",
    txHash := "0xabc", logIndex := some 0, contract := "0xA0", appID := 0,
    name := "Transfer", args := [("value", .vBigInt 1000)] }

def evmHappyMatcher : EvmMatcher := fun lg =>
  if lg.address = "0xA0" then .ok (some evmBaseEvent) else .ok none

def evmHappyScanner : EvmScanner :=
  { sourceID := "evm_main", startBlock := "1", confirmations := 0,
    matchers := [evmHappyMatcher], addresses := ["0xA0"] }

def evmHappyClient : EvmClient :=
  { latest := some ⟨1, "0xh1", "0xh0"⟩,
    headerAt := fun n =>
      if n = 1 then some ⟨1, "0xh1", "0xh0"⟩
      else if n = 0 then some ⟨0, "0xh0", "0x"⟩ else none,
    filterLogs := fun n _ =>
      if n = 1 then some [⟨"0xA0", ["0xtopic0"], "0xabc", 0⟩] else some [] }

def algoBaseEvent : NEvent :=
  { chain := "", sourceID := "", ruleID := "algo_app_watch", height := 0, hash := "",
    txHash := "", logIndex := none, contract := "", appID := 0,
    name := "app_call", args := [("app_id", .vUInt64 123)] }

def algoHappyMatcher : AlgoMatcher := fun tx =>
  if tx.appID = 123 then .ok (some algoBaseEvent) else .ok none

def algoHappyScanner : AlgoScanner :=
  { sourceID := "algo_main", startRound := "1", confirmations := 0,
    matchers := [algoHappyMatcher] }

def algoHappyClient : AlgoClient :=
  { status := some 1,
    blockAt := fun n => if n = 1 then some ⟨"H0", [⟨"TX1", 123⟩]⟩ else none,
    blockHashAt := fun n => if n = 1 then some "H1" else none }

/-- The EVM fixture event after stamping. -/
def evmStampedEvent : NEvent :=
  { evmBaseEvent with
    chain := "evm"
    sourceID := "evm_main"
    height := 1
    hash := "0xh1" }

/-- The Algorand fixture event after txn and block stamping. -/
def algoStampedEvent : NEvent :=
  { algoBaseEvent with
    chain := "algorand"
    sourceID := "algo_main"
    height := 1
    hash := "H1"
    txHash := "TX1"
    appID := 123 }

def evmHappyTrace : List SEffect :=
  [SEffect.getCursor "evm_main", SEffect.fetchLatest, .fetchHeader 1,
   .fetchLogs 1, .upsertCursor "evm_main" 1 "0xh1"]

def algoHappyTrace : List SEffect :=
  [SEffect.getCursor "algo_main", SEffect.fetchLatest, .fetchBlock 1,
   .fetchBlockHash 1, .upsertCursor "algo_main" 1 "H1"]

/-- C2 witness: on the happy-path fixtures both scanners return one event
stamped with the target height and block hash, and the trace ends in the
cursor upsert. -/
theorem c2_success_stamps_and_cursor_last_witness :
    (∃ t hd, evmHappyClient.headerAt t = some hd ∧
      (∀ e ∈ [evmStampedEvent], e.height = t ∧ e.hash = hd.hash) ∧
      getCursor (⟨[("evm_main", 1, "0xh1")], []⟩ : StoreState) "evm_main" =
        (t, hd.hash, true) ∧
      evmHappyTrace =
        [SEffect.getCursor "evm_main", SEffect.fetchLatest, .fetchHeader t,
         .fetchLogs t, .upsertCursor "evm_main" t hd.hash] ∧
      evmHappyTrace.getLast? = some (.upsertCursor "evm_main" t hd.hash) ∧
      evmHappyTrace.filter SEffect.isWrite = [.upsertCursor "evm_main" t hd.hash]) ∧
    (∃ t bh, algoHappyClient.blockHashAt t = some bh ∧
      (∀ e ∈ [algoStampedEvent], e.height = t ∧ e.hash = bh) ∧
      getCursor (⟨[("algo_main", 1, "H1")], []⟩ : StoreState) "algo_main" =
        (t, bh, true) ∧
      algoHappyTrace =
        [SEffect.getCursor "algo_main", SEffect.fetchLatest, .fetchBlock t,
         .fetchBlockHash t, .upsertCursor "algo_main" t bh] ∧
      algoHappyTrace.getLast? = some (.upsertCursor "algo_main" t bh) ∧
      algoHappyTrace.filter SEffect.isWrite = [.upsertCursor "algo_main" t bh]) :=
  ⟨c2_success_stamps_and_cursor_last.1 evmHappyScanner evmHappyClient ⟨[], []⟩
      [evmStampedEvent] ⟨[("evm_main", 1, "0xh1")], []⟩ evmHappyTrace
      (by decide) (by decide),
   c2_success_stamps_and_cursor_last.2 algoHappyScanner algoHappyClient ⟨[], []⟩
      [algoStampedEvent] ⟨[("algo_main", 1, "H1")], []⟩ algoHappyTrace
      (by decide) (by decide)⟩
